import Mathlib

/-!
Verification of the s3mover transport engine against its specification.

The definitions below are a shallow embedding of the Go source
(`transporter.go`, `stats.go`, `config.go`): pure functions become Lean
functions, the stateful parts (buffer pool, metrics counters, the
supervisor/dispatch loops, the semaphore-guarded fan-out) become explicit
state passing or small-step transition relations.  External collaborators
(the S3 client, the gzip codec from the Go standard library, the
filesystem, the wall clock, context cancellation) are modelled as explicit
parameters, matching the spec's interface boundaries.

Time instants are modelled by their civil representation (year, month,
day, hour, minute, second) in the fixed process-wide zone `TZ`; the Go
`ts.In(TZ)` conversion is therefore the identity on the model.
-/

namespace S3Mover

/-- Civil date-time in the fixed process-wide time zone `TZ`
(model of Go `time.Time` as consumed by `genKey` after `.In(TZ)`). -/
structure DateTime where
  year : Nat
  month : Nat
  day : Nat
  hour : Nat
  minute : Nat
  second : Nat
  deriving DecidableEq, Repr

/-- Zero-padded two-digit decimal rendering, as Go's `time.Format`
produces for the layout chunks `01`, `02`, `15`, `04`, `05`. -/
def pad2 (n : Nat) : String :=
  if n < 10 then "0" ++ toString n else toString n

/-- Four-digit year rendering, as Go's `time.Format` produces for the
layout chunk `2006` on years in 1000..9999. -/
def pad4 (n : Nat) : String :=
  if n < 10 then "000" ++ toString n
  else if n < 100 then "00" ++ toString n
  else if n < 1000 then "0" ++ toString n
  else toString n

/-- Model of Go `time.Time.Format` restricted to the layout chunks the
repository uses (`2006`, `01`, `02`, `15`, `04`, `05`) with all other
characters copied verbatim; Go's chunk scanner agrees with this
restricted matcher on every layout built from these chunks and
separator characters. -/
def formatChars (dt : DateTime) : List Char → String
  | '2' :: '0' :: '0' :: '6' :: rest => pad4 dt.year ++ formatChars dt rest
  | '0' :: '1' :: rest => pad2 dt.month ++ formatChars dt rest
  | '0' :: '2' :: rest => pad2 dt.day ++ formatChars dt rest
  | '0' :: '4' :: rest => pad2 dt.minute ++ formatChars dt rest
  | '0' :: '5' :: rest => pad2 dt.second ++ formatChars dt rest
  | '1' :: '5' :: rest => pad2 dt.hour ++ formatChars dt rest
  | c :: rest => String.singleton c ++ formatChars dt rest
  | [] => ""

/-- `ts.In(TZ).Format(layout)` of the source: `DateTime` already carries
the civil fields in `TZ`, so only the layout substitution remains. -/
def formatTime (ts : DateTime) (layout : String) : String :=
  formatChars ts layout.toList

/-- Model of Go `path/filepath.Join`: empty elements are skipped and the
rest are joined with `/`.  (Go additionally runs `Clean` on the result;
for the arguments the repository produces — no `.`/`..` components, no
doubled or trailing slashes — `Clean` is the identity.) -/
def filepathJoin (elems : List String) : String :=
  String.intercalate "/" (elems.filter (fun e => e ≠ ""))

/-- `DefaultTimeFormat` constant of `transporter.go`: the default time
format for the key of the object in S3 (hour granularity). -/
def DefaultTimeFormat : String := "2006/01/02/15"

/-- `genKey` of `transporter.go`:
```go
func genKey(prefix, name string, ts time.Time, gz bool, format string) string {
    if format == "" { format = DefaultTimeFormat }
    key := filepath.Join(prefix, ts.In(TZ).Format(format), name)
    if gz { return key + ".gz" }
    return key
}
``` -/
def genKey (pfx name : String) (ts : DateTime) (gz : Bool) (format : String) : String :=
  let format := if format = "" then DefaultTimeFormat else format
  let key := filepathJoin [pfx, formatTime ts format, name]
  if gz then key ++ ".gz" else key

/-- The timestamp 2022-01-02T03:04:05 used by the spec's key-generation
examples (given in the process zone `TZ`, as in the repository's tests). -/
def exampleTS : DateTime := ⟨2022, 1, 2, 3, 4, 5⟩

/-- Model of Go `strings.HasPrefix(s, p)`: the characters of `p` lead
the characters of `s`. -/
def hasPfx (s p : String) : Bool := p.toList.isPrefixOf s.toList

/-- A directory entry as returned by Go `os.ReadDir`: a name plus the
is-directory flag (the only two facts `listFiles` consults). -/
structure DirEntry where
  name : String
  isDir : Bool
  deriving DecidableEq, Repr

/-- `listFiles` of `transporter.go`: keep every entry that is not a
directory and whose name does not start with `.`, joining each kept name
to the directory:
```go
for _, file := range files {
    if file.IsDir() || strings.HasPrefix(file.Name(), ".") { continue }
    paths = append(paths, filepath.Join(dir, file.Name()))
}
```
The `os.ReadDir` listing itself is the `entries` parameter (its possible
failure is handled by the caller, `runOnce`). -/
def listFiles (dir : String) (entries : List DirEntry) : List String :=
  (entries.filter (fun f => ¬(f.isDir = true ∨ hasPfx f.name "." = true))).map
    (fun f => filepathJoin [dir, f.name])

/-- The five-entry directory of the spec's `listFiles` example. -/
def exampleEntries : List DirEntry :=
  [⟨"foo", false⟩, ⟨"foo.txt", false⟩, ⟨".foo.bar", false⟩, ⟨"bar", false⟩, ⟨"bar.txt", false⟩]

/-- `Metrics` of `stats.go`: the three `int64` counters
`Objects.{Uploaded, Errored, Queued}`. -/
structure Metrics where
  uploaded : Int
  errored : Int
  queued : Int
  deriving DecidableEq, Repr

/-- `NewMetrics` / the zero `Metrics{}` value the `Transporter` starts
with. -/
def newMetrics : Metrics := ⟨0, 0, 0⟩

/-- `Metrics.PutObject` of `stats.go`: atomically add 1 to `Uploaded` on
success, to `Errored` on failure. -/
def putObject (m : Metrics) (success : Bool) : Metrics :=
  if success then { m with uploaded := m.uploaded + 1 }
  else { m with errored := m.errored + 1 }

/-- `Metrics.SetQueued` of `stats.go`: atomically overwrite `Queued`.
(No code path in the repository calls it: `runOnce`, `process`, `upload`
and the supervisor only ever call `PutObject`.) -/
def setQueued (m : Metrics) (n : Int) : Metrics := { m with queued := n }

/-- The cumulative effect of one completed dispatch cycle on `Metrics`:
each launched job reports its outcome through `tr.metrics.PutObject`
(`runOnce`, lines 211-217); the individual atomic increments commute, so
a fold over the outcome list captures every interleaving.  No code in
the cycle touches `Queued`. -/
def cycleMetrics (m : Metrics) (outcomes : List Bool) : Metrics :=
  outcomes.foldl putObject m

/-- Metrics after a sequence of completed dispatch cycles, starting from
process start (`Metrics{}`). -/
def runCycles (cycles : List (List Bool)) : Metrics :=
  cycles.foldl cycleMetrics newMetrics

/-- Number of successful outcomes in a cycle. -/
def countTrue (outcomes : List Bool) : Nat := outcomes.count true

/-- Number of failed outcomes in a cycle. -/
def countFalse (outcomes : List Bool) : Nat := outcomes.count false

/-- Candidates of a cycle still awaiting completion once `completed` of
its `total` jobs have finished; after `wg.Wait()` returns, every job has
finished, so this is `pendingJobs total total = 0`. -/
def pendingJobs (total completed : Nat) : Nat := total - completed

/-- Outcome of `runOnce` as observed by the supervisor: either the
directory-listing error or the pair `(processed, total)`, plus the
number of upload jobs the cycle launched. -/
structure RunOnceOut where
  result : Except String (Int × Int)
  jobsLaunched : Nat
  deriving Repr

/-- `runOnce` of `transporter.go` (lines 191-222), with the two
environment-dependent effects as parameters: `listing` is what
`listFiles(tr.config.SrcDir)` produced (`os.ReadDir` may fail), and
`outcome p` tells whether `tr.process(ctx, p)` succeeded for path `p`.
A listing failure returns the error at once; an empty listing returns
`(0, 0)`; otherwise one goroutine is launched per path, `processed`
counts the successes (atomic increments commute), and `total` is the
number of candidates seen at the start of the cycle. -/
def runOnce (listing : Except String (List String)) (outcome : String → Bool) : RunOnceOut :=
  match listing with
  | .error e => ⟨.error e, 0⟩
  | .ok paths =>
    if paths.isEmpty then ⟨.ok (0, 0), 0⟩
    else ⟨.ok (((paths.filter outcome).length : Int), (paths.length : Int)), paths.length⟩

/-- What the supervisor (`run`, lines 158-189) does after one loop
iteration: exit returning the cancellation signal, sleep `RetryWait` and
loop, or loop again immediately. -/
inductive LoopOutcome where
  | exitCanceled
  | sleepThenContinue
  | continueNow
  deriving DecidableEq, Repr

/-- One iteration of the supervisor loop `run` (lines 158-189):
```go
select { case <-ctx.Done(): return ctx.Err() ; default: }
processed, total, err := tr.runOnce(ctx)
if err != nil            { ...; tr.sleep(ctx, RetryWait); continue }
if total == 0            { ...; tr.sleep(ctx, RetryWait); continue }
if processed > 0 && processed == total { ... } else { ...; tr.sleep(ctx, RetryWait) }
```
`cancelled` is whether `ctx.Done()` is closed when the iteration starts. -/
def runStep (cancelled : Bool) (r : Except String (Int × Int)) : LoopOutcome :=
  if cancelled then .exitCanceled
  else
    match r with
    | .error _ => .sleepThenContinue
    | .ok (processed, total) =>
      if total = 0 then .sleepThenContinue
      else if 0 < processed ∧ processed = total then .continueNow
      else .sleepThenContinue

/-- `Transporter.sleep` (lines 149-156): a `select` racing `ctx.Done()`
(which fires at `cancelAt`, if ever) against `time.After(d)`; the value
is the instant at which the sleep returns, measured from its start. -/
def sleepReturn (d : Nat) (cancelAt : Option Nat) : Nat :=
  match cancelAt with
  | none => d
  | some t => min t d

/-- State of one dispatch cycle's fan-out (`runOnce`, lines 204-221):
`pending` paths not yet launched, `active` goroutines currently running
`tr.process`, `cur` units currently held in the weighted semaphore,
whether the process-wide context has been cancelled, and whether a
`sem.Release` has panicked (`golang.org/x/sync/semaphore` panics with
"semaphore: released more than held" when `Release` exceeds the held
units). -/
structure DispatchState where
  pending : Nat
  active : Nat
  cur : Nat
  cancelled : Bool
  panicked : Bool
  deriving DecidableEq, Repr

/-- Small-step semantics of the fan-out loop under the semaphore sized
`N` (`semaphore.NewWeighted(config.MaxParallels)`):
* `cancel` — the process-wide cancellation signal fires.
* `launchAcquired` — `tr.sem.Acquire(ctx, 1)` succeeds (context live,
  a unit free: `cur < N`) and the goroutine is launched.
* `launchUnacquired` — the context is cancelled, so `Acquire` returns
  `ctx.Err()` **without acquiring**; `runOnce` ignores that error and
  launches the goroutine anyway (line 207's return value is dropped).
* `finishRelease` — a goroutine finishes and its deferred
  `tr.sem.Release(1)` gives a held unit back.
* `finishReleasePanic` — a goroutine finishes while no unit is held;
  its deferred `Release(1)` panics in the semaphore library. -/
inductive DispatchStep (N : Nat) : DispatchState → DispatchState → Prop where
  | cancel (s : DispatchState) :
      s.cancelled = false → DispatchStep N s { s with cancelled := true }
  | launchAcquired (s : DispatchState) :
      s.cancelled = false → 0 < s.pending → s.cur < N →
      DispatchStep N s
        { s with pending := s.pending - 1, active := s.active + 1, cur := s.cur + 1 }
  | launchUnacquired (s : DispatchState) :
      s.cancelled = true → 0 < s.pending →
      DispatchStep N s { s with pending := s.pending - 1, active := s.active + 1 }
  | finishRelease (s : DispatchState) :
      0 < s.active → 0 < s.cur →
      DispatchStep N s { s with active := s.active - 1, cur := s.cur - 1 }
  | finishReleasePanic (s : DispatchState) :
      0 < s.active → s.cur = 0 →
      DispatchStep N s { s with active := s.active - 1, panicked := true }

/-- States of the fan-out reachable from `s` by zero or more steps. -/
def DispatchReachable (N : Nat) (s t : DispatchState) : Prop :=
  Relation.ReflTransGen (DispatchStep N) s t

/-- Heap of backing byte arrays.  A `bytes.Buffer`'s storage is a Go
slice into one of these arrays; array `i` holds `arrs[i]`, whose length
is the array's capacity. -/
structure Mem where
  arrs : List (List UInt8)
  deriving DecidableEq, Repr

/-- Content of backing array `i`. -/
def memGet (m : Mem) (i : Nat) : List UInt8 := m.arrs.getD i []

/-- Overwrite backing array `i` in place (an aliasing write: every slice
into array `i` observes it). -/
def memSet (m : Mem) (i : Nat) (v : List UInt8) : Mem := ⟨m.arrs.set i v⟩

/-- A `bytes.Buffer`: the id of its backing array plus the number of
bytes written (`b.len`; the read offset `b.off` stays 0 because the
repository never reads through the buffer). -/
structure GoBuffer where
  arrId : Nat
  len : Nat
  deriving DecidableEq, Repr

/-- `new(bytes.Buffer)` (the pool's `New` function): no bytes written,
fresh empty backing array (capacity 0, so the first write allocates). -/
def newBuffer (m : Mem) : GoBuffer × Mem :=
  ({ arrId := m.arrs.length, len := 0 }, ⟨m.arrs ++ [[]]⟩)

/-- `bytes.Buffer.Write` as performed by the gzip writer flushing into
the buffer: if the bytes fit in the current capacity the write lands in
the existing backing array **in place** (Go's `tryGrowByReslice`);
otherwise a new array is allocated holding the live bytes followed by
the new ones.  Go allocates the new array with extra capacity; modelling
the capacity as exactly the bytes written is a lower bound, so whenever
a write fits in place here it also fits in place in Go. -/
def bufWrite (m : Mem) (b : GoBuffer) (data : List UInt8) : GoBuffer × Mem :=
  let arr := memGet m b.arrId
  if b.len + data.length ≤ arr.length then
    ({ b with len := b.len + data.length },
      memSet m b.arrId (arr.take b.len ++ data ++ arr.drop (b.len + data.length)))
  else
    ({ arrId := m.arrs.length, len := b.len + data.length },
      ⟨m.arrs ++ [arr.take b.len ++ data]⟩)

/-- `bytes.Buffer.Reset`: forget the written bytes but keep the backing
array (its contents are *not* erased). -/
def bufReset (b : GoBuffer) : GoBuffer := { b with len := 0 }

/-- `buf.Bytes()`: the slice of the backing array holding the written
bytes. -/
def bufBytes (m : Mem) (b : GoBuffer) : List UInt8 := (memGet m b.arrId).take b.len

/-- The buffer pool (`var pool sync.Pool`) together with the array heap.
`sync.Pool.Get` may return any previously `Put` buffer or fall back to
`New`; the model resolves that nondeterminism as a stack, which is one
of the schedules the real pool produces. -/
structure PoolState where
  pool : List GoBuffer
  mem : Mem
  deriving DecidableEq, Repr

/-- `getBufferFromPool` of `transporter.go` (lines 54-60), first half:
`pool.Get().(*bytes.Buffer)`. -/
def getBufferFromPool (st : PoolState) : GoBuffer × PoolState :=
  match st.pool with
  | b :: rest => (b, ⟨rest, st.mem⟩)
  | [] =>
    let (b, m) := newBuffer st.mem
    (b, ⟨[], m⟩)

/-- `getBufferFromPool`'s second return value, the closure
`func() { buf.Reset(); pool.Put(buf) }`, applied to the buffer as it
stands when the deferred call runs. -/
def returnToPool (st : PoolState) (b : GoBuffer) : PoolState :=
  ⟨bufReset b :: st.pool, st.mem⟩

/-- The external `compress/gzip` library, at the interface `loadFile`
uses: the bytes that `NewWriterLevel(buf, level)` + `io.Copy` + `Close`
leave in `buf` for a given input (a complete gzip stream: header,
deflate body at the given level, footer). -/
structure GzipCodec where
  compress : Int → List UInt8 → List UInt8

/-- A file on disk as `loadFile` observes it: its content bytes
(`stat.Size()` is their count) and its modification time
(`stat.ModTime()`), as a civil time in the process zone `TZ`. -/
structure FileData where
  content : List UInt8
  modTime : DateTime
  deriving DecidableEq, Repr

/-- The source directory's filesystem state: which path holds which
file. -/
def FS := String → Option FileData

/-- Failures of `loadFile`: `os.Open` error, `f.Stat()` error,
`gzip.NewWriterLevel` error (level out of range), or an `io.Copy` read
error. -/
inductive LoadErr where
  | openErr
  | statErr
  | levelErr
  | copyErr
  deriving DecidableEq, Repr

/-- The `io.ReadCloser` that `loadFile` returns: either the open file
handle itself (raw path) or a `bytes.Reader` over a slice of a backing
array (gzip path: `io.NopCloser(bytes.NewReader(buf.Bytes()))`). -/
inductive Stream where
  | fileHandle (content : List UInt8)
  | reader (arrId : Nat) (count : Nat)
  deriving DecidableEq, Repr

/-- The bytes a full read of the stream yields, in the given heap: a
`bytes.Reader` reads through its slice into the backing array, so it
observes that array as it stands **at read time**. -/
def readStream (m : Mem) : Stream → List UInt8
  | .fileHandle c => c
  | .reader i n => (memGet m i).take n

/-- The triple `loadFile` returns on success: the stream, its declared
`ContentLength`, and the file's modification time. -/
structure LoadResult where
  stream : Stream
  length : Int
  modTime : DateTime

/-- `loadFile` of `transporter.go` (lines 276-306), with the I/O
environment explicit: `fs` is the directory state (`os.Open` fails iff
the path is absent), `statOk`/`copyOk` tell whether `f.Stat()` and the
`io.Copy` read succeed, and `st` is the buffer pool.  On the gzip path
the pooled buffer receives the compressed bytes, the returned reader is
a slice of the buffer's backing array (`buf.Bytes()` — **no copy**), and
the deferred `returnToPool` runs on every exit taken after the
check-out, resetting the buffer and pooling it. -/
def loadFile (fs : FS) (codec : GzipCodec) (path : String) (gz : Bool) (gzipLevel : Int)
    (statOk copyOk : Bool) (st : PoolState) : Except LoadErr LoadResult × PoolState :=
  match fs path with
  | none => (.error .openErr, st)
  | some file =>
    if statOk = false then (.error .statErr, st)
    else if gz then
      let (buf, st1) := getBufferFromPool st
      if gzipLevel < -2 ∨ 9 < gzipLevel then (.error .levelErr, returnToPool st1 buf)
      else if copyOk = false then (.error .copyErr, returnToPool st1 buf)
      else
        let (buf2, m2) := bufWrite st1.mem buf (codec.compress gzipLevel file.content)
        (.ok ⟨.reader buf2.arrId buf2.len, (buf2.len : Int), file.modTime⟩,
          returnToPool ⟨st1.pool, m2⟩ buf2)
    else
      (.ok ⟨.fileHandle file.content, (file.content.length : Int), file.modTime⟩, st)

/-- The configuration fields the upload pipeline reads (`config.go`,
validated before the engine starts). -/
structure ConfigM where
  bucket : String
  keyPfx : String
  gzip : Bool
  gzipLevel : Int
  timeFormat : String

/-- The `/`-separated component a scan of the characters ends in. -/
def lastComponent : List Char → List Char → List Char
  | [], cur => cur
  | c :: rest, cur =>
    if c = '/' then lastComponent rest [] else lastComponent rest (cur ++ [c])

/-- Model of `path/filepath.Base` for the paths the dispatcher produces
(`filepath.Join(dir, name)` with a non-empty `name`, hence no trailing
slash): the last `/`-separated component. -/
def filepathBase (path : String) : String := ⟨lastComponent path.toList []⟩

/-- The arguments `upload` passes to the storage capability:
`PutObject(bucket, key, body, length)`. -/
structure PutCall where
  bucket : String
  key : String
  body : Stream
  length : Int

/-- `Transporter.upload` (lines 238-263) up to and including the
construction of the `PutObject` call: load the payload, generate the key
from the key prefix, the path's base name, the loader's timestamp and
the gzip flag/time format.  `now` is the ambient wall clock at upload
time; the source never consults it here (it appears only in `init`'s
probe key), which this embedding makes explicit by taking it as an
unused parameter. -/
def uploadCall (cfg : ConfigM) (fs : FS) (codec : GzipCodec) (path : String)
    (statOk copyOk : Bool) (now : DateTime) (st : PoolState) :
    Except LoadErr PutCall × PoolState :=
  match loadFile fs codec path cfg.gzip cfg.gzipLevel statOk copyOk st with
  | (.error e, st') => (.error e, st')
  | (.ok r, st') =>
    (.ok ⟨cfg.bucket,
          genKey cfg.keyPfx (filepathBase path) r.modTime cfg.gzip cfg.timeFormat,
          r.stream, r.length⟩, st')

/-- Failures of `Transporter.process`: the upload failed (loading the
file or the storage call), or the upload succeeded and `os.Remove`
failed. -/
inductive ProcErr where
  | uploadLoadErr (e : LoadErr)
  | uploadPutErr
  | removeErr
  deriving DecidableEq, Repr

/-- Remove a path from the directory state (`os.Remove` succeeding). -/
def fsRemove (fs : FS) (path : String) : FS :=
  fun p => if p = path then none else fs p

/-- `Transporter.process` (lines 224-236) with its effect on the source
directory: run `upload` (load + storage put, `putOk` telling whether the
storage call succeeded); on upload failure return the error with the
directory untouched; on upload success run `os.Remove` (`removeOk`
telling whether it succeeded), which deletes the file, or fails leaving
it in place.  The second component is the resulting directory state, the
third whether a remove was attempted. -/
def process (cfg : ConfigM) (fs : FS) (codec : GzipCodec) (path : String)
    (statOk copyOk putOk removeOk : Bool) (now : DateTime) (st : PoolState) :
    Except ProcErr Unit × FS × Bool × PoolState :=
  match uploadCall cfg fs codec path statOk copyOk now st with
  | (.error e, st') => (.error (.uploadLoadErr e), fs, false, st')
  | (.ok _, st') =>
    if putOk = false then (.error .uploadPutErr, fs, false, st')
    else if removeOk = false then (.error .removeErr, fs, true, st')
    else (.ok (), fsRemove fs path, true, st')

/-- Concrete sample file `dir/a` (three bytes, modified at the example
timestamp), used to evaluate the pipeline at concrete inputs. -/
def fileA : FileData := ⟨[1, 2, 3], exampleTS⟩

/-- Concrete sample file `dir/b` (two bytes). -/
def fileB : FileData := ⟨[9, 9], exampleTS⟩

/-- A concrete source-directory state holding `dir/a` and `dir/b`. -/
def sampleFS : FS :=
  fun p => if p = "dir/a" then some fileA else if p = "dir/b" then some fileB else none

/-- The pool state at process start: no pooled buffer, no allocated
array. -/
def emptyPool : PoolState := ⟨[], ⟨[]⟩⟩

/-- A concrete instantiation of the external gzip codec interface (it
returns its input bytes unchanged), used to evaluate the engine's own
buffer management at concrete inputs; the pool behaviour under scrutiny
is independent of which bytes the codec produces. -/
def gzStub : GzipCodec := ⟨fun _ b => b⟩

/-- A concrete configuration: bucket `bucket`, key prefix `xxx`, gzip
disabled, level 6, empty (defaulted) time format. -/
def sampleCfg : ConfigM := ⟨"bucket", "xxx", false, 6, ""⟩

/-- First gzip-path load: `dir/a` compressed into a freshly allocated
pooled buffer. -/
def poolLoad1 : Except LoadErr LoadResult × PoolState :=
  loadFile sampleFS gzStub "dir/a" true 6 true true emptyPool

/-- Second gzip-path load, after the first: `dir/b` compressed into the
buffer the first call returned to the pool. -/
def poolLoad2 : Except LoadErr LoadResult × PoolState :=
  loadFile sampleFS gzStub "dir/b" true 6 true true poolLoad1.2

/-! ## Helper lemmas -/

theorem putObject_queued (m : Metrics) (b : Bool) : (putObject m b).queued = m.queued := by
  cases b <;> simp [putObject]

theorem putObject_uploaded (m : Metrics) (b : Bool) :
    (putObject m b).uploaded = m.uploaded + if b = true then 1 else 0 := by
  cases b <;> simp [putObject]

theorem putObject_errored (m : Metrics) (b : Bool) :
    (putObject m b).errored = m.errored + if b = false then 1 else 0 := by
  cases b <;> simp [putObject]

theorem cycleMetrics_queued (l : List Bool) (m : Metrics) :
    (cycleMetrics m l).queued = m.queued := by
  induction l generalizing m with
  | nil => rfl
  | cons b t ih =>
    rw [show cycleMetrics m (b :: t) = cycleMetrics (putObject m b) t from rfl, ih,
      putObject_queued]

theorem cycleMetrics_uploaded (l : List Bool) (m : Metrics) :
    (cycleMetrics m l).uploaded = m.uploaded + (countTrue l : Int) := by
  induction l generalizing m with
  | nil => simp [cycleMetrics, countTrue]
  | cons b t ih =>
    rw [show cycleMetrics m (b :: t) = cycleMetrics (putObject m b) t from rfl, ih,
      putObject_uploaded]
    cases b <;> simp [countTrue, List.count_cons] <;> omega

theorem cycleMetrics_errored (l : List Bool) (m : Metrics) :
    (cycleMetrics m l).errored = m.errored + (countFalse l : Int) := by
  induction l generalizing m with
  | nil => simp [cycleMetrics, countFalse]
  | cons b t ih =>
    rw [show cycleMetrics m (b :: t) = cycleMetrics (putObject m b) t from rfl, ih,
      putObject_errored]
    cases b <;> simp [countFalse, List.count_cons] <;> omega

theorem foldl_cycles_uploaded (cycles : List (List Bool)) (m : Metrics) :
    (cycles.foldl cycleMetrics m).uploaded = m.uploaded + ((cycles.map countTrue).sum : Int) := by
  induction cycles generalizing m with
  | nil => simp
  | cons c t ih =>
    rw [List.foldl_cons, ih, cycleMetrics_uploaded]
    simp [List.sum_cons]
    omega

theorem foldl_cycles_errored (cycles : List (List Bool)) (m : Metrics) :
    (cycles.foldl cycleMetrics m).errored = m.errored + ((cycles.map countFalse).sum : Int) := by
  induction cycles generalizing m with
  | nil => simp
  | cons c t ih =>
    rw [List.foldl_cons, ih, cycleMetrics_errored]
    simp [List.sum_cons]
    omega

theorem foldl_cycles_queued (cycles : List (List Bool)) (m : Metrics) :
    (cycles.foldl cycleMetrics m).queued = m.queued := by
  induction cycles generalizing m with
  | nil => rfl
  | cons c t ih => rw [List.foldl_cons, ih, cycleMetrics_queued]

theorem bufWrite_len_zero (m : Mem) (b : GoBuffer) (data : List UInt8) (hb : b.len = 0) :
    (bufWrite m b data).1.len = data.length ∧
    (memGet (bufWrite m b data).2 (bufWrite m b data).1.arrId).take (bufWrite m b data).1.len
      = data := by
  unfold bufWrite
  simp only [hb, Nat.zero_add, List.take_zero, List.nil_append]
  split
  · next hfit =>
    refine ⟨rfl, ?_⟩
    by_cases hr : b.arrId < m.arrs.length
    · simp [memGet, memSet, List.getD_eq_getElem?_getD, List.getElem?_set_self hr]
    · have harr : memGet m b.arrId = [] := by
        simp [memGet, List.getD_eq_getElem?_getD,
          List.getElem?_eq_none (Nat.le_of_not_lt hr)]
      rw [harr] at hfit
      have hd : data = [] := List.eq_nil_of_length_eq_zero (Nat.le_zero.1 hfit)
      subst hd
      simp [memGet, memSet]
  · refine ⟨rfl, ?_⟩
    simp [memGet, List.getD_eq_getElem?_getD, List.take_length]

theorem getBuffer_len_zero (st : PoolState) (hwf : ∀ b ∈ st.pool, b.len = 0) :
    (getBufferFromPool st).1.len = 0 := by
  rcases st with ⟨pool, mem⟩
  cases pool with
  | nil => rfl
  | cons b rest => exact hwf b (List.mem_cons_self b rest)

theorem loadFile_raw_result (fs : FS) (codec : GzipCodec) (path : String) (lvl : Int)
    (st : PoolState) (file : FileData) (hf : fs path = some file) :
    loadFile fs codec path false lvl true true st =
      (.ok ⟨.fileHandle file.content, (file.content.length : Int), file.modTime⟩, st) := by
  simp [loadFile, hf]

theorem loadFile_gz_result (fs : FS) (codec : GzipCodec) (path : String) (lvl : Int)
    (st : PoolState) (file : FileData) (hf : fs path = some file)
    (hlvl : ¬(lvl < -2 ∨ 9 < lvl)) (hwf : ∀ b ∈ st.pool, b.len = 0) :
    ∃ i st2,
      loadFile fs codec path true lvl true true st =
        (.ok ⟨.reader i (codec.compress lvl file.content).length,
              ((codec.compress lvl file.content).length : Int), file.modTime⟩, st2) ∧
      readStream st2.mem (.reader i (codec.compress lvl file.content).length)
        = codec.compress lvl file.content := by
  have hb0 := getBuffer_len_zero st hwf
  rcases hgb : getBufferFromPool st with ⟨buf, st1⟩
  rw [hgb] at hb0
  obtain ⟨hlen, hbytes⟩ := bufWrite_len_zero st1.mem buf (codec.compress lvl file.content) hb0
  rcases hbw : bufWrite st1.mem buf (codec.compress lvl file.content) with ⟨b2, m2⟩
  rw [hbw] at hlen hbytes
  simp only at hlen hbytes
  refine ⟨b2.arrId, returnToPool ⟨st1.pool, m2⟩ b2, ?_, ?_⟩
  · simp [loadFile, hf, hlvl, hgb, hbw, hlen]
  · simpa [readStream, returnToPool, memGet, hlen] using hbytes

theorem loadFile_ok_modTime (fs : FS) (codec : GzipCodec) (path : String) (gz : Bool)
    (lvl : Int) (so co : Bool) (st : PoolState) (file : FileData) (r : LoadResult)
    (st2 : PoolState) (hf : fs path = some file)
    (h : loadFile fs codec path gz lvl so co st = (.ok r, st2)) :
    r.modTime = file.modTime := by
  cases so with
  | false => simp [loadFile, hf] at h
  | true =>
    cases gz with
    | false =>
      simp [loadFile, hf] at h
      rw [← h.1]
    | true =>
      simp [loadFile, hf] at h
      rcases hgb : getBufferFromPool st with ⟨buf, st1⟩
      rw [hgb] at h
      simp only at h
      rcases hbw : bufWrite st1.mem buf (codec.compress lvl file.content) with ⟨b2, m2⟩
      rw [hbw] at h
      simp only at h
      split at h
      · simp at h
      · split at h
        · simp at h
        · simp only [Prod.mk.injEq, Except.ok.injEq] at h
          rw [← h.1]

/-! ## Claims -/

/-- **C1, counterexample.** With the default (empty) time format, the
generated keys are *not* the minute-granularity keys the claim states:
the default `DefaultTimeFormat` is hour-granular, so
`genKey("", "foo", 2022-01-02T03:04:05, gz, "")` is not
`"2022/01/02/03/04/foo[.gz]"`, nor is the `"xxx"`-prefixed variant. -/
theorem c1_default_keys_counterexample :
    genKey "" "foo" exampleTS false "" ≠ "2022/01/02/03/04/foo" ∧
    genKey "" "foo" exampleTS true "" ≠ "2022/01/02/03/04/foo.gz" ∧
    genKey "xxx" "foo" exampleTS false "" ≠ "xxx/2022/01/02/03/04/foo" ∧
    genKey "xxx" "foo" exampleTS true "" ≠ "xxx/2022/01/02/03/04/foo.gz" := by
  refine ⟨by decide, by decide, by decide, by decide⟩

/-- **C1, amended.** For prefix `""`, filename `"foo"`, timestamp
2022-01-02T03:04:05 and an empty `timeFormat`, the hour-granularity
default `"2006/01/02/15"` is substituted and `genKey` returns
`"2022/01/02/03/foo"`; with gzip it appends `".gz"`; with prefix
`"xxx"` it prepends `"xxx/"`.  The minute-granularity keys of the
original claim arise exactly when the format `"2006/01/02/15/04"` is
passed explicitly. -/
theorem c1_default_keys :
    genKey "" "foo" exampleTS false "" = "2022/01/02/03/foo" ∧
    genKey "" "foo" exampleTS true "" = "2022/01/02/03/foo.gz" ∧
    genKey "xxx" "foo" exampleTS false "" = "xxx/2022/01/02/03/foo" ∧
    genKey "xxx" "foo" exampleTS true "" = "xxx/2022/01/02/03/foo.gz" ∧
    genKey "" "foo" exampleTS false "2006/01/02/15/04" = "2022/01/02/03/04/foo" ∧
    genKey "xxx" "foo" exampleTS true "2006/01/02/15/04" = "xxx/2022/01/02/03/04/foo.gz" := by
  refine ⟨by decide, by decide, by decide, by decide, by decide, by decide⟩

/-- **C2.** Starting from process start (`Metrics{}`), after any
sequence of completed dispatch cycles: `uploaded` and `errored` are the
cumulative success/failure counts over all cycles since process start,
and `queued` equals the number of candidates of the most recent cycle
that have not yet completed — which is `0` once the cycle's barrier
(`wg.Wait`) has been passed, every candidate having completed.
(`queued` in fact still holds its initial value: no cycle code path
writes it.) -/
theorem c2_metrics_counters (cycles : List (List Bool)) :
    (runCycles cycles).uploaded = ((cycles.map countTrue).sum : Int) ∧
    (runCycles cycles).errored = ((cycles.map countFalse).sum : Int) ∧
    (runCycles cycles).queued = newMetrics.queued ∧
    (∀ last, cycles.getLast? = some last →
      (runCycles cycles).queued = (pendingJobs last.length last.length : Int)) := by
  refine ⟨?_, ?_, ?_, ?_⟩
  · rw [runCycles, foldl_cycles_uploaded]; simp [newMetrics]
  · rw [runCycles, foldl_cycles_errored]; simp [newMetrics]
  · rw [runCycles, foldl_cycles_queued]
  · intro last _
    rw [runCycles, foldl_cycles_queued]
    simp [newMetrics, pendingJobs]

/-- **C2, witness.** A concrete two-cycle run: 2 successes and 1
failure accumulate, and `queued` equals the completed last cycle's
pending count. -/
theorem c2_metrics_counters_witness :
    (runCycles [[true], [false, true]]).queued = (pendingJobs 2 2 : Int) :=
  (c2_metrics_counters [[true], [false, true]]).2.2.2 [false, true] rfl

/-- **C4.** `runOnce` returns an error exactly when the directory
listing fails, and then launches no job; an empty candidate list yields
`(0, 0)` with no error and no jobs; with a non-empty list the result is
never an error, whatever the individual job outcomes. -/
theorem c4_runOnce_error_policy (e : String) (paths : List String)
    (outcome : String → Bool) :
    runOnce (.error e) outcome = ⟨.error e, 0⟩ ∧
    runOnce (.ok []) outcome = ⟨.ok (0, 0), 0⟩ ∧
    (runOnce (.ok paths) outcome).result.isOk = true ∧
    (∀ listing : Except String (List String),
      (runOnce listing outcome).result.isOk = listing.isOk) := by
  refine ⟨rfl, rfl, ?_, ?_⟩
  · cases h : paths.isEmpty <;> simp [runOnce, h, Except.isOk, Except.toBool]
  · intro listing
    cases listing with
    | error e => rfl
    | ok paths' => cases h : paths'.isEmpty <;> simp [runOnce, h, Except.isOk, Except.toBool]

/-- **C10.** `listFiles` keeps exactly the non-directory, non-dotted
entries: everything it returns is the joined path of such an entry,
every such entry's joined path is returned, and on the spec's example
directory the result is exactly `{foo, foo.txt, bar, bar.txt}`. -/
theorem c10_listFiles_filter (dir : String) (entries : List DirEntry) :
    (∀ p ∈ listFiles dir entries, ∃ e, e ∈ entries ∧ e.isDir = false ∧
      hasPfx e.name "." = false ∧ p = filepathJoin [dir, e.name]) ∧
    (∀ e ∈ entries, e.isDir = false → hasPfx e.name "." = false →
      filepathJoin [dir, e.name] ∈ listFiles dir entries) ∧
    listFiles "" exampleEntries = ["foo", "foo.txt", "bar", "bar.txt"] := by
  refine ⟨?_, ?_, by decide⟩
  · intro p hp
    simp only [listFiles, List.mem_map, List.mem_filter] at hp
    obtain ⟨e, ⟨he, hcond⟩, rfl⟩ := hp
    refine ⟨e, he, ?_, ?_, rfl⟩ <;> revert hcond <;>
      cases e.isDir <;> cases h : hasPfx e.name "." <;> simp [h]
  · intro e he h1 h2
    simp only [listFiles, List.mem_map]
    exact ⟨e, List.mem_filter.2 ⟨he, by simp [h1, h2]⟩, rfl⟩

/-- **C10, witness.** On the example directory, entry `foo` (a regular,
non-dotted file) is listed. -/
theorem c10_listFiles_filter_witness :
    filepathJoin ["", "foo"] ∈ listFiles "" exampleEntries :=
  (c10_listFiles_filter "" exampleEntries).2.1 ⟨"foo", false⟩ (by decide) rfl (by decide)

/-- **C3.** In `process(path)`: if the storage put fails, the local
directory is untouched and no delete is attempted; the directory loses
the file exactly when `process` succeeds, so deletion happens only
after storage success; a delete is attempted iff the upload (load +
storage put) succeeded; and `process` succeeds iff the upload and the
deletion both succeeded — i.e. it returns an error exactly when the
upload or the deletion fails. -/
theorem c3_process_delete_policy (cfg : ConfigM) (fs : FS) (codec : GzipCodec) (path : String)
    (statOk copyOk putOk removeOk : Bool) (now : DateTime) (st : PoolState) :
    (putOk = false →
      (process cfg fs codec path statOk copyOk putOk removeOk now st).2.1 = fs ∧
      (process cfg fs codec path statOk copyOk putOk removeOk now st).2.2.1 = false ∧
      (process cfg fs codec path statOk copyOk putOk removeOk now st).1.isOk = false) ∧
    ((process cfg fs codec path statOk copyOk putOk removeOk now st).2.1 =
      if (process cfg fs codec path statOk copyOk putOk removeOk now st).1.isOk = true
      then fsRemove fs path else fs) ∧
    ((process cfg fs codec path statOk copyOk putOk removeOk now st).2.2.1 = true ↔
      (uploadCall cfg fs codec path statOk copyOk now st).1.isOk = true ∧ putOk = true) ∧
    ((process cfg fs codec path statOk copyOk putOk removeOk now st).1.isOk = true ↔
      (uploadCall cfg fs codec path statOk copyOk now st).1.isOk = true ∧
      putOk = true ∧ removeOk = true) := by
  rcases h : uploadCall cfg fs codec path statOk copyOk now st with ⟨res, st'⟩
  cases res with
  | error e => simp [process, h, Except.isOk, Except.toBool]
  | ok call =>
    cases putOk <;> cases removeOk <;>
      simp [process, h, Except.isOk, Except.toBool]

/-- **C3, witness.** Concrete failing storage call (`putOk = false`) on
an existing file: the directory keeps the file, no delete is attempted,
and `process` reports an error. -/
theorem c3_process_delete_policy_witness :
    (process sampleCfg sampleFS gzStub "dir/a" true true false true exampleTS emptyPool).2.1 =
      sampleFS ∧
    (process sampleCfg sampleFS gzStub "dir/a" true true false true exampleTS emptyPool).2.2.1 =
      false ∧
    (process sampleCfg sampleFS gzStub "dir/a" true true false true exampleTS emptyPool).1.isOk =
      false :=
  (c3_process_delete_policy sampleCfg sampleFS gzStub "dir/a" true true false true exampleTS
    emptyPool).1 rfl

/-- **C5.** Supervisor loop policy (`run`): full success
(`processed = total > 0`) loops again with no sleep; a listing error,
`total = 0`, or partial success (`0 < processed < total`) all sleep the
fixed retry interval before the next cycle; cancellation observed at
the top of an iteration exits the loop returning the cancellation
signal; and the interruptible sleep returns at the cancellation instant
whenever cancellation fires before the timer. -/
theorem c5_supervisor_policy (e : String) (p t : Int)
    (r : Except String (Int × Int)) (d tc : Nat) :
    (0 < t → runStep false (.ok (t, t)) = .continueNow) ∧
    runStep false (.error e) = .sleepThenContinue ∧
    runStep false (.ok (p, 0)) = .sleepThenContinue ∧
    (0 < p → p < t → runStep false (.ok (p, t)) = .sleepThenContinue) ∧
    runStep true r = .exitCanceled ∧
    (tc < d → sleepReturn d (some tc) = tc) ∧
    sleepReturn d none = d := by
  refine ⟨?_, rfl, ?_, ?_, rfl, ?_, rfl⟩
  · intro ht
    simp [runStep, ht, ht.ne']
  · simp [runStep]
  · intro hp hpt
    have ht : ¬(t = 0) := by omega
    have hne : ¬(0 < p ∧ p = t) := by omega
    simp [runStep, ht, hne]
  · intro h
    simp [sleepReturn, Nat.min_eq_left h.le]

/-- **C5, witness.** Concrete instances: full success (3 of 3) loops
immediately, partial success (1 of 3) sleeps, and a sleep of 5 units
with cancellation at instant 2 returns at instant 2. -/
theorem c5_supervisor_policy_witness :
    runStep false (.ok (3, 3)) = .continueNow ∧
    runStep false (.ok (1, 3)) = .sleepThenContinue ∧
    sleepReturn 5 (some 2) = 2 :=
  ⟨(c5_supervisor_policy "e" 1 3 (.ok (1, 3)) 5 2).1 (by decide),
   (c5_supervisor_policy "e" 1 3 (.ok (1, 3)) 5 2).2.2.2.1 (by decide) (by decide),
   (c5_supervisor_policy "e" 1 3 (.ok (1, 3)) 5 2).2.2.2.2.2.1 (by decide)⟩

/-- **C6, violation of the cap at a failing input.** With
max-parallelism `N = 1` and two candidate files, once the process-wide
cancellation fires before the launches, `sem.Acquire` fails without
acquiring, `runOnce` ignores the returned error and launches both
goroutines anyway: a state with **2 concurrently active pipeline
invocations** is reachable, exceeding the cap; continuing, the
goroutines' deferred `Release(1)` calls release units that were never
acquired, reaching a state where the semaphore library has panicked
("semaphore: released more than held"). -/
theorem c6_semaphore_cap_violation :
    DispatchReachable 1 ⟨2, 0, 0, false, false⟩ ⟨0, 2, 0, true, false⟩ ∧
    1 < (DispatchState.mk 0 2 0 true false).active ∧
    DispatchReachable 1 ⟨2, 0, 0, false, false⟩ ⟨0, 0, 0, true, true⟩ := by
  have h1 : DispatchStep 1 ⟨2, 0, 0, false, false⟩ ⟨2, 0, 0, true, false⟩ :=
    DispatchStep.cancel _ rfl
  have h2 : DispatchStep 1 ⟨2, 0, 0, true, false⟩ ⟨1, 1, 0, true, false⟩ :=
    DispatchStep.launchUnacquired _ rfl (by decide)
  have h3 : DispatchStep 1 ⟨1, 1, 0, true, false⟩ ⟨0, 2, 0, true, false⟩ :=
    DispatchStep.launchUnacquired _ rfl (by decide)
  have h4 : DispatchStep 1 ⟨0, 2, 0, true, false⟩ ⟨0, 1, 0, true, true⟩ :=
    DispatchStep.finishReleasePanic _ (by decide) rfl
  have h5 : DispatchStep 1 ⟨0, 1, 0, true, true⟩ ⟨0, 0, 0, true, true⟩ :=
    DispatchStep.finishReleasePanic _ (by decide) rfl
  have hr : DispatchReachable 1 ⟨2, 0, 0, false, false⟩ ⟨0, 2, 0, true, false⟩ :=
    Relation.ReflTransGen.head h1 (Relation.ReflTransGen.head h2
      (Relation.ReflTransGen.head h3 Relation.ReflTransGen.refl))
  refine ⟨hr, by decide, Relation.ReflTransGen.trans hr ?_⟩
  exact Relation.ReflTransGen.head h4 (Relation.ReflTransGen.head h5 Relation.ReflTransGen.refl)

/-- **C7.** For a readable file: loading with gzip disabled returns the
on-disk size as the length and a stream whose full read is the file's
content, byte-identically; loading with gzip enabled returns the
compressed size as the length and a stream whose full read (performed
before any further pool activity) is exactly the codec's compressed
output, so any decoder inverting the codec recovers the original
content byte-identically.  `hwf` is the pool invariant Go maintains
(only `Reset` buffers are ever `Put`). -/
theorem c7_loadFile_length_content (fs : FS) (codec : GzipCodec) (path : String)
    (file : FileData) (lvl : Int) (st : PoolState) (hf : fs path = some file)
    (hlvl : ¬(lvl < -2 ∨ 9 < lvl)) (hwf : ∀ b ∈ st.pool, b.len = 0) :
    loadFile fs codec path false lvl true true st =
      (.ok ⟨.fileHandle file.content, (file.content.length : Int), file.modTime⟩, st) ∧
    readStream st.mem (.fileHandle file.content) = file.content ∧
    (∃ i st2,
      loadFile fs codec path true lvl true true st =
        (.ok ⟨.reader i (codec.compress lvl file.content).length,
              ((codec.compress lvl file.content).length : Int), file.modTime⟩, st2) ∧
      readStream st2.mem (.reader i (codec.compress lvl file.content).length)
        = codec.compress lvl file.content ∧
      ∀ decode : List UInt8 → List UInt8,
        decode (codec.compress lvl file.content) = file.content →
        decode (readStream st2.mem (.reader i (codec.compress lvl file.content).length))
          = file.content) := by
  refine ⟨loadFile_raw_result fs codec path lvl st file hf, rfl, ?_⟩
  obtain ⟨i, st2, h1, h2⟩ := loadFile_gz_result fs codec path lvl st file hf hlvl hwf
  exact ⟨i, st2, h1, h2, fun dec hdec => by rw [h2, hdec]⟩

/-- **C7, witness.** Loading the concrete three-byte file raw returns
its content stream, its size as the length, and its modification
time, leaving the pool untouched. -/
theorem c7_loadFile_length_content_witness :
    loadFile sampleFS gzStub "dir/a" false 6 true true emptyPool =
      (.ok ⟨.fileHandle fileA.content, (fileA.content.length : Int), fileA.modTime⟩,
        emptyPool) :=
  (c7_loadFile_length_content sampleFS gzStub "dir/a" fileA 6 emptyPool rfl (by decide)
    (by decide)).1

/-- **C8.** The upload pipeline's object key is generated from the
file's on-disk modification time as returned by the payload loader,
never from the wall clock: the `PutObject` call is identical for any
two wall-clock instants, and every successful call's key equals
`genKey` applied to the loader's modification time — hence a retried
upload of an unchanged file yields the identical key. -/
theorem c8_key_from_modtime (cfg : ConfigM) (fs : FS) (codec : GzipCodec) (path : String)
    (file : FileData) (statOk copyOk : Bool) (now now2 : DateTime) (st : PoolState)
    (hf : fs path = some file) :
    uploadCall cfg fs codec path statOk copyOk now st =
      uploadCall cfg fs codec path statOk copyOk now2 st ∧
    ∀ call st2, uploadCall cfg fs codec path statOk copyOk now st = (.ok call, st2) →
      call.key = genKey cfg.keyPfx (filepathBase path) file.modTime cfg.gzip cfg.timeFormat := by
  refine ⟨rfl, ?_⟩
  intro call st2 h
  rcases hl : loadFile fs codec path cfg.gzip cfg.gzipLevel statOk copyOk st with ⟨res, stx⟩
  unfold uploadCall at h
  rw [hl] at h
  cases res with
  | error e => simp at h
  | ok lr =>
    have hm := loadFile_ok_modTime fs codec path cfg.gzip cfg.gzipLevel statOk copyOk st
      file lr stx hf hl
    simp only [Prod.mk.injEq, Except.ok.injEq] at h
    rw [← h.1, ← hm]

/-- **C8, witness.** The concrete successful upload call for `dir/a`
carries the key generated from the file's modification time (the
example timestamp), not from the (different) wall-clock instant
passed to the pipeline. -/
theorem c8_key_from_modtime_witness :
    (PutCall.mk "bucket" "xxx/2022/01/02/03/a" (.fileHandle [1, 2, 3]) 3).key =
      genKey sampleCfg.keyPfx (filepathBase "dir/a") fileA.modTime sampleCfg.gzip
        sampleCfg.timeFormat :=
  (c8_key_from_modtime sampleCfg sampleFS gzStub "dir/a" fileA true true
    ⟨2024, 6, 7, 8, 9, 10⟩ exampleTS emptyPool rfl).2
    ⟨"bucket", "xxx/2022/01/02/03/a", .fileHandle [1, 2, 3], 3⟩ emptyPool rfl

/-- **C9.** The pooled buffer *is* returned to the pool before
`loadFile` returns (on success and on the error paths) — but the
returned stream is **not** independent of the pool thereafter: it wraps
the pooled buffer's backing array without copying, so a later checkout
that compresses another file rewrites the bytes the stream reads.
Concretely: the first load's stream reads back its compressed payload
immediately after the call, yet after the second load (which checks the
same buffer out again) the very same stream reads `[9, 9, 3]` — the
second file's bytes followed by a stale byte — instead of the first
file's compressed payload. -/
theorem c9_pool_stream_aliasing :
    (poolLoad1.1.toOption.map fun r => readStream poolLoad1.2.mem r.stream)
      = some (gzStub.compress 6 fileA.content) ∧
    (poolLoad1.1.toOption.map fun r => readStream poolLoad2.2.mem r.stream)
      = some [9, 9, 3] ∧
    some ([9, 9, 3] : List UInt8) ≠ some (gzStub.compress 6 fileA.content) ∧
    poolLoad1.2.pool.length = 1 ∧
    (loadFile sampleFS gzStub "dir/a" true 20 true true emptyPool).2.pool.length = 1 := by
  refine ⟨by decide, by decide, by decide, by decide, by decide⟩

end S3Mover
